import Mathlib

/-!
Shallow embedding of the Superlists core.

From the repository's source:
  - `lists/models.py`: the `List` and `Item` rows, `List.create_new`,
    the derived `List.name`, `Item.Meta.ordering = ('id',)` and
    `Item.Meta.unique_together = ('list', 'text')`;
  - `accounts/views.py`: `send_login_email` and `login`.

Parts of the repository that are not available under `src/` (the item
validation forms, the Token model, the authentication backend, the URL
configuration) are modelled from the specification; each such definition
says so in its doc comment.

Rows live in Lean lists in insertion order; auto-increment primary keys
are explicit counters. Each `objects.create` call is one committed
storage write (the host framework autocommits; the source opens no
transaction of its own). A storage write rejected by a constraint
commits nothing and is an `Except.error`.
-/

namespace Superlists

/-- An `Item` row of `lists/models.py`: `text = models.TextField(default='')`,
`list = models.ForeignKey(List, ...)`; `id` is the automatic primary key. -/
structure Item where
  id : Nat
  text : String
  list : Nat
deriving DecidableEq, Repr

/-- A `List` row of `lists/models.py`: `owner = models.ForeignKey(AUTH_USER_MODEL,
blank=True, null=True, ...)`, the owner kept by email; `id` is the automatic
primary key. -/
structure ListRec where
  id : Nat
  owner : Option String
deriving DecidableEq, Repr

/-- The lists database: the `List` rows, the `Item` rows, and the two
auto-increment counters for fresh primary keys. -/
structure DB where
  lists : List ListRec
  items : List Item
  nextListId : Nat
  nextItemId : Nat
deriving DecidableEq, Repr

/-- The database before any row has been created. -/
def emptyDB : DB := ⟨[], [], 0, 0⟩

/-- The storage fault raised when an insert violates a constraint
(Django's `IntegrityError`). -/
inductive InsertError where
  | integrityError
deriving DecidableEq, Repr

/-- `List.objects.create(owner=owner)`: commit a new `List` row with a fresh id
and return it. -/
def DB.createList (db : DB) (owner : Option String) : ListRec × DB :=
  let l : ListRec := ⟨db.nextListId, owner⟩
  (l, { db with lists := db.lists ++ [l], nextListId := db.nextListId + 1 })

/-- `Item.objects.create(text=..., list=...)`: commit a new `Item` row with a
fresh id. `Item.Meta.unique_together = ('list', 'text')` is enforced by the
storage layer: when a row with the same `(list, text)` pair already exists the
insert is rejected with an `IntegrityError` and nothing is committed. -/
def DB.createItem (db : DB) (text : String) (listId : Nat) :
    Except InsertError (Item × DB) :=
  if db.items.any (fun i => i.list == listId && i.text == text) then
    .error .integrityError
  else
    let it : Item := ⟨db.nextItemId, text, listId⟩
    .ok (it, { db with items := db.items ++ [it], nextItemId := db.nextItemId + 1 })

/-- `List.create_new(first_item_text, owner=None)`: create the `List` row, then
its first `Item` row. The source wraps the two creates in no transaction; a
fault in the second create propagates. -/
def DB.create_new (db : DB) (firstItemText : String) (owner : Option String) :
    Except InsertError (ListRec × DB) :=
  let (l, db1) := db.createList owner
  match db1.createItem firstItemText l.id with
  | .ok (_, db2) => .ok (l, db2)
  | .error e => .error e

/-- The sequence of committed states produced by one run of `List.create_new`:
each `objects.create` autocommits, and the source opens no enclosing
transaction, so the state after the `List` insert is durable on its own before
the `Item` insert runs. A run that fails between the two writes leaves the
first state; a completed run leaves the second. -/
def DB.create_new_commits (db : DB) (firstItemText : String) (owner : Option String) :
    List DB :=
  let (l, db1) := db.createList owner
  match db1.createItem firstItemText l.id with
  | .ok (_, db2) => [db1, db2]
  | .error _ => [db1]

/-- Items of one list in ascending `id` order: the retrieval contract of
`Item.Meta.ordering = ('id',)`. -/
def DB.itemsOf (db : DB) (listId : Nat) : List Item :=
  List.insertionSort (fun a b => a.id ≤ b.id)
    (db.items.filter (fun i => i.list == listId))

/-- `List.name`: `self.item_set.first().text`. `first()` follows the model
ordering (ascending id) and yields no row at all for a list with zero items, in
which case reading `.text` fails; that failure is modelled as `none`. -/
def DB.name (db : DB) (listId : Nat) : Option String :=
  (db.itemsOf listId).head?.map Item.text

/-- The storage invariant induced by `unique_together = ('list', 'text')`: no
two `Item` rows of the same list carry equal text. -/
def DB.perListUnique (db : DB) : Prop :=
  db.items.Pairwise (fun a b => a.list = b.list → a.text ≠ b.text)

/-- The database states reachable from the empty store through the model's
storage operations. -/
inductive DB.Reachable : DB → Prop where
  | empty : DB.Reachable emptyDB
  | createList (db : DB) (o : Option String) :
      DB.Reachable db → DB.Reachable (db.createList o).2
  | createItem (db db' : DB) (t : String) (lid : Nat) (it : Item) :
      DB.Reachable db → db.createItem t lid = .ok (it, db') → DB.Reachable db'

/-- Outcome of one `add_item` call. Every constructor carries the database
state the caller observes afterwards: the committed state on success, the
unchanged state on a validation failure (nothing was committed), and the
unchanged prior state on an uncaught storage fault. -/
inductive AddOutcome where
  | ok : DB → AddOutcome
  | emptyItemError : DB → AddOutcome
  | duplicateItemError : DB → AddOutcome
  | storageFault : DB → AddOutcome
deriving DecidableEq, Repr

/-- Modelled from the spec: the Item Validator — the repository's
`lists/forms.py` (`ItemForm`, `ExistingListItemForm`, `NewListForm` with
`EMPTY_ITEM_ERROR` and `DUPLICATE_ITEM_ERROR`) is not under `src/`, only its
tests and callers are. Following §4.4: an empty `text` fails with
`EmptyItemError` before any storage write; the new-list path runs
`List.create_new` (a uniqueness fault there is not a duplicate of anything and
propagates as a raw storage fault); the existing-list path attempts the insert
and translates the storage-level uniqueness violation into
`DuplicateItemError`, with no partial write committed. -/
def add_item (db : DB) (listRef : Option Nat) (text : String)
    (ownerIfNew : Option String) : AddOutcome :=
  if text = "" then .emptyItemError db
  else
    match listRef with
    | none =>
      match db.create_new text ownerIfNew with
      | .ok (_, db2) => .ok db2
      | .error _ => .storageFault db
    | some lid =>
      match db.createItem text lid with
      | .ok (_, db2) => .ok db2
      | .error .integrityError => .duplicateItemError db

/-! ## Accounts -/

/-- Modelled from the spec: the Token row (`accounts/models.py` is not under
`src/`) — `uid` an opaque, globally unique identifier generated at creation,
`email` the address the token was issued for. The unguessable-uid generation is
modelled by a fresh draw from the store's counter. -/
structure Token where
  uid : Nat
  email : String
deriving DecidableEq, Repr

/-- The accounts database: the issued tokens, the known user emails, and the
source of fresh uids. -/
structure AuthDB where
  tokens : List Token
  users : List String
  nextUid : Nat
deriving DecidableEq, Repr

/-- The accounts database before any token or user exists. -/
def emptyAuthDB : AuthDB := ⟨[], [], 0⟩

/-- Modelled from the spec: Token Store `issue(email)`
(`Token.objects.create(email=email)`): generate a fresh uid, commit the record,
return it. -/
def AuthDB.issue (db : AuthDB) (email : String) : Token × AuthDB :=
  let t : Token := ⟨db.nextUid, email⟩
  (t, { db with tokens := db.tokens ++ [t], nextUid := db.nextUid + 1 })

/-- Modelled from the spec: Token Store `find_by_uid(uid)` — exact lookup of a
token whose uid, rendered in its natural string form, equals the presented
value; no partial matching. -/
def AuthDB.find_by_uid (db : AuthDB) (uid : String) : Option Token :=
  db.tokens.find? (fun t => toString t.uid == uid)

/-- Modelled from the spec: the Authenticator (`accounts/authentication.py` is
not under `src/`), §4.2: an absent or empty uid resolves to no identity; an
unknown uid resolves to no identity; a known uid resolves the token's email to
a user, creating that user when absent. Returns the resolved identity (an
email) and the store, which may now hold the lazily created user. -/
def authenticate (db : AuthDB) (uid : Option String) : Option String × AuthDB :=
  match uid with
  | none => (none, db)
  | some u =>
    if u = "" then (none, db)
    else
      match db.find_by_uid u with
      | none => (none, db)
      | some t =>
        if db.users.contains t.email then (some t.email, db)
        else (some t.email, { db with users := db.users ++ [t.email] })

/-- `login(request)` from `accounts/views.py`: call
`auth.authenticate(uid=request.GET.get('token'))`; when a user comes back,
`auth.login` binds the session to that user; either way redirect to `/`.
The result is (established session, redirect target, resulting store). -/
def login (db : AuthDB) (tokenParam : Option String) :
    Option String × String × AuthDB :=
  match authenticate db tokenParam with
  | (some user, db1) => (some user, "/", db1)
  | (none, db1) => (none, "/", db1)

/-- An outbound mail as handed to `send_mail(subject, body, from, recipients)`. -/
structure Message where
  subject : String
  body : String
  fromAddr : String
  recipients : List String
deriving DecidableEq, Repr

/-- A fault of the external mailer collaborator. -/
inductive MailFault where
  | failure
deriving DecidableEq, Repr

/-- Modelled from the spec: the fixed route that `reverse('login')` resolves to
(the URL configuration is not under `src/`); §6 gives the link the form
`<site-root>/login?token=<uid>`. -/
def loginRoute : String := "/login"

/-- The login URL built in `send_login_email`:
`request.build_absolute_uri(reverse('login') + '?token=' + str(token.uid))`. -/
def login_url (siteRoot : String) (uid : Nat) : String :=
  siteRoot ++ (loginRoute ++ ("?token=" ++ toString uid))

/-- The mail composed in `send_login_email` around the login URL for the given
token uid. -/
def login_message (siteRoot : String) (uid : Nat) (email : String) : Message :=
  { subject := "Your login link for Superlists"
    body := "Use this link to log in:\n\n" ++ login_url siteRoot uid
    fromAddr := "noreply@superlists"
    recipients := [email] }

/-- The user-visible confirmation flashed by `messages.success`. -/
def successMessage : String :=
  "Проверьте свою почту, мы отправили Вам ссылку, " ++
  "которую можно использовать для входа на сайт."

/-- `send_login_email(request)` from `accounts/views.py`: create a Token for
the posted email, build the login URL, hand the message to the mailer
(`send_mail`), flash the confirmation and redirect to `/`. A mailer fault is
not caught: it propagates to the caller, the already-committed Token remaining.
The result is (resulting store, message handed to the mailer, and either the
propagated fault or the pair (confirmation text, redirect target)). -/
def send_login_email (db : AuthDB) (siteRoot : String)
    (mailer : Message → Except MailFault Unit) (email : String) :
    AuthDB × Message × Except MailFault (String × String) :=
  let (token, db1) := db.issue email
  let msg := login_message siteRoot token.uid email
  (db1, msg,
    match mailer msg with
    | .error e => .error e
    | .ok _ => .ok (successMessage, "/"))

/-! ## Concrete stores used to instantiate the theorems -/

/-- One list, id 0, created and still empty. -/
def dbL : DB := ⟨[⟨0, none⟩], [], 1, 0⟩

/-- `dbL` after a first successful `add_item` of `"buy milk"`. -/
def dbLI : DB := ⟨[⟨0, none⟩], [⟨0, "buy milk", 0⟩], 1, 1⟩

/-- `dbLI` after a further successful `add_item` of `"buy eggs"`. -/
def dbLI2 : DB := ⟨[⟨0, none⟩], [⟨0, "buy milk", 0⟩, ⟨1, "buy eggs", 0⟩], 1, 2⟩

/-- Two lists, ids 0 and 1, holding items with the same text `"milk"`. -/
def dbCross : DB := ⟨[⟨0, none⟩, ⟨1, none⟩], [⟨0, "milk", 0⟩, ⟨1, "milk", 1⟩], 2, 2⟩

/-- A mailer that accepts every message. -/
def mailerOk : Message → Except MailFault Unit := fun _ => .ok ()

/-- A mailer that faults on every message. -/
def mailerBad : Message → Except MailFault Unit := fun _ => .error .failure

/-! ## Inversion lemmas for the storage operations -/

theorem createItem_ok_iff {db db' : DB} {t : String} {lid : Nat} {it : Item} :
    db.createItem t lid = .ok (it, db') ↔
      db.items.any (fun i => i.list == lid && i.text == t) = false ∧
      it = ⟨db.nextItemId, t, lid⟩ ∧
      db' = { db with items := db.items ++ [⟨db.nextItemId, t, lid⟩],
                      nextItemId := db.nextItemId + 1 } := by
  cases hb : db.items.any (fun i => i.list == lid && i.text == t) with
  | true => simp [DB.createItem, hb]
  | false =>
    simp only [DB.createItem, hb, Bool.false_eq_true, if_false, Except.ok.injEq,
      Prod.mk.injEq, true_and]
    constructor
    · rintro ⟨h1, h2⟩; exact ⟨h1.symm, h2.symm⟩
    · rintro ⟨h1, h2⟩; exact ⟨h1.symm, h2.symm⟩

theorem createItem_dup {db : DB} {t : String} {lid : Nat}
    (h : db.items.any (fun i => i.list == lid && i.text == t) = true) :
    db.createItem t lid = .error .integrityError := by
  simp [DB.createItem, h]

theorem add_item_some_ok_iff {db db' : DB} {lid : Nat} {t : String}
    {o : Option String} :
    add_item db (some lid) t o = .ok db' ↔
      t ≠ "" ∧
      db.items.any (fun i => i.list == lid && i.text == t) = false ∧
      db' = { db with items := db.items ++ [⟨db.nextItemId, t, lid⟩],
                      nextItemId := db.nextItemId + 1 } := by
  by_cases ht : t = ""
  · simp [add_item, ht]
  · cases hc : db.createItem t lid with
    | ok p =>
      obtain ⟨hany, hit, hdb⟩ := createItem_ok_iff.mp (show db.createItem t lid = .ok (p.1, p.2) from hc)
      simp only [add_item, ht, if_false, hc, AddOutcome.ok.injEq, ne_eq,
        not_false_eq_true, true_and, hany]
      rw [hdb]
      exact ⟨fun h => h.symm, fun h => h.symm⟩
    | error e =>
      cases e
      have hany : db.items.any (fun i => i.list == lid && i.text == t) = true := by
        cases hb : db.items.any (fun i => i.list == lid && i.text == t) with
        | true => rfl
        | false =>
          rw [createItem_ok_iff.mpr ⟨hb, rfl, rfl⟩] at hc
          exact absurd hc (by simp)
      simp [add_item, ht, hc, hany]

theorem add_item_some_dup {db : DB} {lid : Nat} {t : String} {o : Option String}
    (ht : t ≠ "")
    (h : db.items.any (fun i => i.list == lid && i.text == t) = true) :
    add_item db (some lid) t o = .duplicateItemError db := by
  simp [add_item, ht, createItem_dup h]

/-- `dbCross` — same text in two lists — is reachable through the model's
storage operations. -/
theorem reachable_dbCross : dbCross.Reachable :=
  .createItem ⟨[⟨0, none⟩, ⟨1, none⟩], [⟨0, "milk", 0⟩], 2, 1⟩ dbCross "milk" 1
    ⟨1, "milk", 1⟩
    (.createItem ⟨[⟨0, none⟩, ⟨1, none⟩], [], 2, 0⟩ _ "milk" 0 ⟨0, "milk", 0⟩
      (.createList (emptyDB.createList none).2 none (.createList emptyDB none .empty))
      rfl)
    rfl

/-- The store holding `n` created lists, ids `0` to `n - 1`, and no items yet. -/
def mkLists : Nat → DB
  | 0 => emptyDB
  | n + 1 => ((mkLists n).createList none).2

theorem mkLists_reachable (n : Nat) : (mkLists n).Reachable := by
  induction n with
  | zero => exact .empty
  | succ n ih => exact .createList (mkLists n) none ih

theorem mkLists_items (n : Nat) : (mkLists n).items = [] := by
  induction n with
  | zero => rfl
  | succ n ih => simpa [mkLists, DB.createList] using ih

theorem mkLists_nextListId (n : Nat) : (mkLists n).nextListId = n := by
  induction n with
  | zero => rfl
  | succ n ih => simp [mkLists, DB.createList, ih]

theorem mkLists_mem (n i : Nat) (h : i < n) :
    (⟨i, none⟩ : ListRec) ∈ (mkLists n).lists := by
  induction n with
  | zero => omega
  | succ n ih =>
    simp only [mkLists, DB.createList, List.mem_append, List.mem_singleton]
    rcases Nat.lt_or_ge i n with h' | h'
    · exact Or.inl (ih h')
    · have hin : i = n := by omega
      subst hin
      exact Or.inr (by rw [mkLists_nextListId])

/-- From any reachable store with no items yet, inserting one text into two
distinct lists succeeds in both, reaching a store that holds that text in both
lists at once. -/
theorem reachable_cross (db : DB) (hre : db.Reachable) (hitems : db.items = [])
    (t : String) (l1 l2 : Nat) (hne : l1 ≠ l2) :
    ∃ db2 : DB, db2.Reachable ∧ db2.lists = db.lists ∧
      (∃ i1 ∈ db2.items, i1.list = l1 ∧ i1.text = t) ∧
      (∃ i2 ∈ db2.items, i2.list = l2 ∧ i2.text = t) := by
  obtain ⟨ls, its, nl, ni⟩ := db
  simp only at hitems
  subst hitems
  have hok1 : (⟨ls, [], nl, ni⟩ : DB).createItem t l1
      = .ok (⟨ni, t, l1⟩, ⟨ls, [⟨ni, t, l1⟩], nl, ni + 1⟩) := by
    simp [DB.createItem]
  have hok2 : (⟨ls, [⟨ni, t, l1⟩], nl, ni + 1⟩ : DB).createItem t l2
      = .ok (⟨ni + 1, t, l2⟩, ⟨ls, [⟨ni, t, l1⟩, ⟨ni + 1, t, l2⟩], nl, ni + 1 + 1⟩) := by
    simp [DB.createItem, hne]
  exact ⟨_, .createItem _ _ t l2 _ (.createItem _ _ t l1 _ hre hok1) hok2, rfl,
    ⟨⟨ni, t, l1⟩, by simp, rfl, rfl⟩, ⟨⟨ni + 1, t, l2⟩, by simp, rfl, rfl⟩⟩

/-- For every text and every two distinct lists, a reachable store exists in
which both lists are created rows and each holds an item with that text. -/
theorem cross_list_universal (t : String) (l1 l2 : Nat) (hne : l1 ≠ l2) :
    ∃ db : DB, db.Reachable ∧
      (⟨l1, none⟩ : ListRec) ∈ db.lists ∧ (⟨l2, none⟩ : ListRec) ∈ db.lists ∧
      (∃ i1 ∈ db.items, i1.list = l1 ∧ i1.text = t) ∧
      (∃ i2 ∈ db.items, i2.list = l2 ∧ i2.text = t) := by
  obtain ⟨db2, hre2, hlists, hi1, hi2⟩ := reachable_cross (mkLists (max l1 l2 + 1))
    (mkLists_reachable _) (mkLists_items _) t l1 l2 hne
  refine ⟨db2, hre2, ?_, ?_, hi1, hi2⟩
  · rw [hlists]; exact mkLists_mem _ l1 (by omega)
  · rw [hlists]; exact mkLists_mem _ l2 (by omega)

/-- C1: in every reachable database state, no two items of the same list hold
equal text (exact, case-sensitive `String` equality) — the
`unique_together = ('list', 'text')` storage constraint is an invariant — while
for every text value and every two distinct lists, a reachable state exists in
which an item with that text lives in both lists simultaneously. -/
theorem perListUnique_invariant :
    (∀ db : DB, db.Reachable → db.perListUnique) ∧
    (∀ (t : String) (l1 l2 : Nat), l1 ≠ l2 →
      ∃ db : DB, db.Reachable ∧
        (⟨l1, none⟩ : ListRec) ∈ db.lists ∧ (⟨l2, none⟩ : ListRec) ∈ db.lists ∧
        (∃ i1 ∈ db.items, i1.list = l1 ∧ i1.text = t) ∧
        (∃ i2 ∈ db.items, i2.list = l2 ∧ i2.text = t)) := by
  constructor
  · intro db h
    induction h with
    | empty => exact List.Pairwise.nil
    | createList db o _ ih => exact ih
    | createItem db db' t lid it _ heq ih =>
      obtain ⟨hany, -, hdb'⟩ := createItem_ok_iff.mp heq
      subst hdb'
      unfold DB.perListUnique at ih ⊢
      rw [List.pairwise_append]
      refine ⟨ih, List.pairwise_singleton _ _, ?_⟩
      intro a ha b hb
      simp only [List.mem_singleton] at hb
      subst hb
      intro hlist htext
      simp only [List.any_eq_false, Bool.and_eq_true, beq_iff_eq, not_and] at hany
      exact hany a ha hlist htext
  · exact cross_list_universal

/-- Witness for C1: the invariant applied at the concrete reachable state
`dbCross`, and the cross-list part applied at text `"milk"` and the distinct
lists 0 and 1. -/
theorem perListUnique_invariant_witness :
    dbCross.perListUnique ∧
    (∃ db : DB, db.Reachable ∧
      (⟨0, none⟩ : ListRec) ∈ db.lists ∧ (⟨1, none⟩ : ListRec) ∈ db.lists ∧
      (∃ i1 ∈ db.items, i1.list = 0 ∧ i1.text = "milk") ∧
      (∃ i2 ∈ db.items, i2.list = 1 ∧ i2.text = "milk")) :=
  ⟨perListUnique_invariant.1 dbCross reachable_dbCross,
   perListUnique_invariant.2 "milk" 0 1 (by decide)⟩

/-- C2: after a successful `add_item` of text `t` into list `lid`, adding the
same `t` to the same list deterministically fails with `DuplicateItemError`,
and the state the failure hands back is exactly the state after the first add —
no partial write is committed. -/
theorem add_item_duplicate (db db1 : DB) (lid : Nat) (t : String)
    (o o' : Option String)
    (h1 : add_item db (some lid) t o = .ok db1) :
    add_item db1 (some lid) t o' = .duplicateItemError db1 := by
  obtain ⟨ht, -, hdb1⟩ := add_item_some_ok_iff.mp h1
  refine add_item_some_dup ht ?_
  subst hdb1
  simp

/-- Witness for C2: `"buy milk"` added twice to list 0. -/
theorem add_item_duplicate_witness :
    add_item dbLI (some 0) "buy milk" none = .duplicateItemError dbLI :=
  add_item_duplicate dbL dbLI 0 "buy milk" none none (by decide)

/-- C4: adding an item with empty text fails with `EmptyItemError` on both the
new-list path and the existing-list path, and the state handed back is the
unchanged input state — no `Item` row and no `List` row is created. -/
theorem add_item_empty_text (db : DB) (listRef : Option Nat)
    (o : Option String) :
    add_item db listRef "" o = .emptyItemError db := by
  simp [add_item]

/-- When the `Item` insert of `create_new` succeeds, the run commits exactly
the two states: after the `List` write and after the `Item` write. -/
theorem create_new_commits_of_ok {db db2 : DB} {t : String} {o : Option String}
    {it : Item}
    (h : (db.createList o).2.createItem t db.nextListId = .ok (it, db2)) :
    DB.create_new_commits db t o = [(db.createList o).2, db2] := by
  unfold DB.create_new_commits
  simp only [DB.createList] at h ⊢
  rw [h]

/-- C3 counterexample: `List.create_new` is not atomic. Running it on the empty
store with first item text `"buy milk"` produces a committed intermediate state
(the source opens no transaction around its two `objects.create` calls) in
which the created `List` exists with zero `Item` rows, so it is not the case
that every commit of the run keeps every list non-empty. -/
theorem create_new_not_atomic :
    ¬ ∀ s ∈ DB.create_new_commits emptyDB "buy milk" none,
        ∀ l ∈ s.lists, s.itemsOf l.id ≠ [] := by decide

/-- C3 (amended): `List.create_new` performs two sequential autocommitted
storage writes. In a store whose items all belong to already-created lists, the
run commits exactly two states: in the final one the created `List` holds an
`Item` with the given text, but in the intermediate one — what remains when
the run fails between the two writes — the created `List` exists with zero
items. -/
theorem create_new_commits_spec (db : DB) (t : String) (o : Option String)
    (hw : ∀ i ∈ db.items, i.list < db.nextListId) :
    ∃ db1 db2 : DB,
      DB.create_new_commits db t o = [db1, db2] ∧
      (⟨db.nextListId, o⟩ : ListRec) ∈ db1.lists ∧
      db1.itemsOf db.nextListId = [] ∧
      ∃ it ∈ db2.itemsOf db.nextListId, it.text = t := by
  have hfilter : db.items.filter (fun i => i.list == db.nextListId) = [] := by
    rw [List.filter_eq_nil_iff]
    intro a ha
    simp only [beq_iff_eq]
    exact Nat.ne_of_lt (hw a ha)
  have hany : (db.createList o).2.items.any
      (fun i => i.list == db.nextListId && i.text == t) = false := by
    simp only [DB.createList, List.any_eq_false, Bool.and_eq_true, beq_iff_eq,
      not_and]
    intro i hi hl
    exact absurd hl (Nat.ne_of_lt (hw i hi))
  have hok := createItem_ok_iff.mpr ⟨hany, rfl, rfl⟩
  refine ⟨(db.createList o).2, _, create_new_commits_of_ok hok, ?_, ?_, ?_⟩
  · simp [DB.createList]
  · simp [DB.itemsOf, DB.createList, hfilter, List.insertionSort]
  · refine ⟨⟨(db.createList o).2.nextItemId, t, db.nextListId⟩, ?_, rfl⟩
    rw [DB.itemsOf, (List.perm_insertionSort _ _).mem_iff, List.mem_filter]
    simp [DB.createList]

/-- Witness for the amended C3 at the empty store. -/
theorem create_new_commits_spec_witness :
    ∃ db1 db2 : DB,
      DB.create_new_commits emptyDB "buy milk" none = [db1, db2] ∧
      (⟨emptyDB.nextListId, none⟩ : ListRec) ∈ db1.lists ∧
      db1.itemsOf emptyDB.nextListId = [] ∧
      ∃ it ∈ db2.itemsOf emptyDB.nextListId, it.text = "buy milk" :=
  create_new_commits_spec emptyDB "buy milk" none (by decide)

instance : IsTotal Item (fun a b => a.id ≤ b.id) :=
  ⟨fun a b => Nat.le_total a.id b.id⟩

instance : IsTrans Item (fun a b => a.id ≤ b.id) :=
  ⟨fun _ _ _ h h' => Nat.le_trans h h'⟩

/-- Retrieval contract of `Item.Meta.ordering = ('id',)`: the items of a list
come back in ascending id order. -/
theorem itemsOf_sorted (db : DB) (lid : Nat) :
    (db.itemsOf lid).Pairwise (fun a b => a.id ≤ b.id) :=
  List.sorted_insertionSort _ _

/-- Two successive successful adds to one list put the first text strictly
before the second in the retrieved order. -/
theorem add_item_pair_ordered (db db1 db2 : DB) (lid : Nat) (t1 t2 : String)
    (o1 o2 : Option String)
    (h1 : add_item db (some lid) t1 o1 = .ok db1)
    (h2 : add_item db1 (some lid) t2 o2 = .ok db2) :
    ∃ (n1 n2 : Nat) (hn1 : n1 < (db2.itemsOf lid).length)
      (hn2 : n2 < (db2.itemsOf lid).length),
      n1 < n2 ∧ ((db2.itemsOf lid).get ⟨n1, hn1⟩).text = t1 ∧
      ((db2.itemsOf lid).get ⟨n2, hn2⟩).text = t2 := by
  obtain ⟨-, -, hdb1⟩ := add_item_some_ok_iff.mp h1
  obtain ⟨-, -, hdb2⟩ := add_item_some_ok_iff.mp h2
  have hI1 : db1.items = db.items ++ [⟨db.nextItemId, t1, lid⟩] := by simp [hdb1]
  have hN1 : db1.nextItemId = db.nextItemId + 1 := by simp [hdb1]
  have hI2 : db2.items = db.items ++ [⟨db.nextItemId, t1, lid⟩]
      ++ [⟨db.nextItemId + 1, t2, lid⟩] := by
    simp [hdb2, hI1, hN1]
  have hm1 : (⟨db.nextItemId, t1, lid⟩ : Item) ∈ db2.itemsOf lid := by
    rw [DB.itemsOf, (List.perm_insertionSort _ _).mem_iff, List.mem_filter, hI2]
    simp
  have hm2 : (⟨db.nextItemId + 1, t2, lid⟩ : Item) ∈ db2.itemsOf lid := by
    rw [DB.itemsOf, (List.perm_insertionSort _ _).mem_iff, List.mem_filter, hI2]
    simp
  obtain ⟨⟨n1, hn1⟩, hget1⟩ := List.mem_iff_get.mp hm1
  obtain ⟨⟨n2, hn2⟩, hget2⟩ := List.mem_iff_get.mp hm2
  have hpw := List.pairwise_iff_getElem.mp (itemsOf_sorted db2 lid)
  rcases Nat.lt_trichotomy n1 n2 with h | h | h
  · exact ⟨n1, n2, hn1, hn2, h, by rw [hget1], by rw [hget2]⟩
  · exfalso
    subst h
    have heq : (⟨db.nextItemId, t1, lid⟩ : Item) = ⟨db.nextItemId + 1, t2, lid⟩ :=
      hget1.symm.trans hget2
    simp at heq
  · exfalso
    have hle := hpw n2 n1 hn2 hn1 h
    rw [List.get_eq_getElem] at hget1 hget2
    rw [hget1, hget2] at hle
    simp at hle

/-- C5: retrieving a list's items yields them in ascending id order, and ids
follow creation order: after two successive successful adds of `t1` then `t2`
to the same list, both texts are retrievable, `t1` at a strictly earlier
position than `t2`. -/
theorem itemsOf_ordering :
    (∀ (db : DB) (lid : Nat),
      (db.itemsOf lid).Pairwise (fun a b => a.id ≤ b.id)) ∧
    (∀ (db db1 db2 : DB) (lid : Nat) (t1 t2 : String) (o1 o2 : Option String),
      add_item db (some lid) t1 o1 = .ok db1 →
      add_item db1 (some lid) t2 o2 = .ok db2 →
      ∃ (n1 n2 : Nat) (hn1 : n1 < (db2.itemsOf lid).length)
        (hn2 : n2 < (db2.itemsOf lid).length),
        n1 < n2 ∧ ((db2.itemsOf lid).get ⟨n1, hn1⟩).text = t1 ∧
        ((db2.itemsOf lid).get ⟨n2, hn2⟩).text = t2) :=
  ⟨itemsOf_sorted, add_item_pair_ordered⟩

/-- Witness for C5: `"buy milk"` then `"buy eggs"` added to list 0. -/
theorem itemsOf_ordering_witness :
    ∃ (n1 n2 : Nat) (hn1 : n1 < (dbLI2.itemsOf 0).length)
      (hn2 : n2 < (dbLI2.itemsOf 0).length),
      n1 < n2 ∧ ((dbLI2.itemsOf 0).get ⟨n1, hn1⟩).text = "buy milk" ∧
      ((dbLI2.itemsOf 0).get ⟨n2, hn2⟩).text = "buy eggs" :=
  itemsOf_ordering.2 dbL dbLI dbLI2 0 "buy milk" "buy eggs" none none
    (by decide) (by decide)

/-- C9: `List.name` is a partial operation — on any list with zero items,
`item_set.first()` yields no row and its `.text` cannot be read (modelled as
`none`) — and such lists are constructible through the public model interface:
a reachable state holds a list with zero items. -/
theorem name_undefined_on_empty :
    (∀ (db : DB) (lid : Nat), db.itemsOf lid = [] → db.name lid = none) ∧
    (∃ db : DB, db.Reachable ∧ ∃ l ∈ db.lists, db.itemsOf l.id = []) := by
  constructor
  · intro db lid h
    rw [DB.name, h]
    rfl
  · exact ⟨(emptyDB.createList none).2, .createList emptyDB none .empty,
      ⟨0, none⟩, by decide, by decide⟩

/-- Witness for C9 at the concrete empty list of `dbL`. -/
theorem name_undefined_on_empty_witness : dbL.name 0 = none :=
  name_undefined_on_empty.1 dbL 0 (by decide)

/-- C6: handling a login-token request is total in the embedding — no error
value distinct from a storage fault exists. An absent, empty or unknown token
resolves to no identity, and the session `login` establishes is exactly the
identity `authenticate` resolves: none when no user was resolved, that very
user otherwise. -/
theorem login_never_errors :
    (∀ db : AuthDB, (authenticate db none).1 = none ∧
      (authenticate db (some "")).1 = none) ∧
    (∀ (db : AuthDB) (u : String), db.find_by_uid u = none →
      (authenticate db (some u)).1 = none) ∧
    (∀ (db : AuthDB) (tok : Option String),
      (login db tok).1 = (authenticate db tok).1) := by
  refine ⟨fun db => ⟨rfl, by simp [authenticate]⟩, ?_, ?_⟩
  · intro db u h
    by_cases hu : u = ""
    · simp [authenticate, hu]
    · simp [authenticate, hu, h]
  · intro db tok
    rcases hA : authenticate db tok with ⟨u, db'⟩
    cases u <;> simp [login, hA]

/-- Witness for C6: an unknown token in the empty store resolves to no
identity. -/
theorem login_never_errors_witness :
    (authenticate emptyAuthDB (some "nope")).1 = none :=
  login_never_errors.2.1 emptyAuthDB "nope" (by decide)

/-- C7: `send_login_email` commits a Token recording the submitted email, and
the message handed to the mailer for that email contains the login URL, which
is the fixed login route with the new token's uid in its natural string form
as the `token` query parameter: `<site-root>/login?token=<uid>`. -/
theorem send_login_email_url (db : AuthDB) (siteRoot email : String)
    (mailer : Message → Except MailFault Unit) :
    (send_login_email db siteRoot mailer email).1.tokens
        = db.tokens ++ [⟨db.nextUid, email⟩] ∧
    (send_login_email db siteRoot mailer email).2.1
        = login_message siteRoot db.nextUid email ∧
    (∃ p : String, (send_login_email db siteRoot mailer email).2.1.body
        = p ++ login_url siteRoot db.nextUid) ∧
    login_url siteRoot db.nextUid
        = siteRoot ++ ("/login" ++ ("?token=" ++ toString db.nextUid)) := by
  refine ⟨?_, ?_, ⟨"Use this link to log in:\n\n", ?_⟩, rfl⟩ <;>
    simp [send_login_email, AuthDB.issue, login_message]

/-- C8: whenever the mailer returns normally, `send_login_email` reports the
same confirmation text and the same redirect for every submitted email — the
response does not depend on whether the email matches a known user or mailbox —
and a mailer fault is not caught: it comes back to the caller as the fault
itself. -/
theorem send_login_email_uniform :
    (∀ (dbA dbB : AuthDB) (siteRoot eA eB : String)
        (mailer : Message → Except MailFault Unit),
      mailer (login_message siteRoot dbA.nextUid eA) = .ok () →
      mailer (login_message siteRoot dbB.nextUid eB) = .ok () →
      (send_login_email dbA siteRoot mailer eA).2.2
          = .ok (successMessage, "/") ∧
      (send_login_email dbB siteRoot mailer eB).2.2
          = (send_login_email dbA siteRoot mailer eA).2.2) ∧
    (∀ (db : AuthDB) (siteRoot email : String)
        (mailer : Message → Except MailFault Unit) (f : MailFault),
      mailer (login_message siteRoot db.nextUid email) = .error f →
      (send_login_email db siteRoot mailer email).2.2 = .error f) := by
  constructor
  · intro dbA dbB siteRoot eA eB mailer hA hB
    simp [send_login_email, AuthDB.issue, hA, hB]
  · intro db siteRoot email mailer f h
    simp [send_login_email, AuthDB.issue, h]

/-- Witness for C8: two different emails through an accepting mailer, and one
email through a faulting mailer. -/
theorem send_login_email_uniform_witness :
    ((send_login_email emptyAuthDB "http://testserver" mailerOk "a@b.com").2.2
        = .ok (successMessage, "/") ∧
     (send_login_email emptyAuthDB "http://testserver" mailerOk
          "edith@example.com").2.2
        = (send_login_email emptyAuthDB "http://testserver" mailerOk
            "a@b.com").2.2) ∧
    (send_login_email emptyAuthDB "http://testserver" mailerBad "a@b.com").2.2
        = .error .failure :=
  ⟨send_login_email_uniform.1 emptyAuthDB emptyAuthDB "http://testserver"
      "a@b.com" "edith@example.com" mailerOk rfl rfl,
   send_login_email_uniform.2 emptyAuthDB "http://testserver" "a@b.com"
      mailerBad .failure rfl⟩

/-- C10: the response of the `login` view is a redirect to the site root and is
identical across any two requests, whatever tokens they present — valid,
unknown or absent; only the session side effect differs. -/
theorem login_response_independent (db : AuthDB) (t1 t2 : Option String) :
    (login db t1).2.1 = "/" ∧ (login db t1).2.1 = (login db t2).2.1 := by
  have h : ∀ t : Option String, (login db t).2.1 = "/" := by
    intro t
    rcases hA : authenticate db t with ⟨u, db'⟩
    cases u <;> simp [login, hA]
  exact ⟨h t1, (h t1).trans (h t2).symm⟩

end Superlists
